import Mathlib

/-!
Shallow embedding of the burdy post controller
(`src/server/controllers/post.controller.ts`): the slug-path tree
operations, version snapshotting, publish state evaluation and the
recursive reference compiler, together with theorems checking the
specification's claims against these definitions.

Machine data is modelled with `Nat` (ids, timestamps), strings stay
`String`, nullable columns are `Option`, fallible handlers return
`Except`.  The backing store is a list of rows plus fresh-id counters;
each HTTP handler's transaction body becomes a pure function from a
store to an `Except` result.
-/

namespace Burdy

/-- JSON-like values appearing in parsed and compiled post content. -/
inductive JValue : Type where
  | undef : JValue
  | str : String → JValue
  | num : Nat → JValue
  | obj : List (String × JValue) → JValue
deriving Repr

/-- One flattened key/value row of a post's `meta` relation. -/
structure PostMeta where
  key : String
  value : String
deriving Repr, DecidableEq

/-- A row of the `post` table.  `contentTree`, `references` and `assetRefs`
carry the parse of the post's structured content (see `parseContent`). -/
structure Post where
  id : Nat
  type : String
  name : String
  slug : String
  slugPath : String
  status : String
  publishedAt : Option Nat
  publishedFrom : Option Nat
  publishedUntil : Option Nat
  parentId : Option Nat
  contentTypeId : Option Nat
  meta : List PostMeta
  tags : List Nat
  content : Option String
  authorId : Nat
  updatedAt : Nat
  contentTree : List (String × JValue)
  references : List (String × Nat)
  assetRefs : List (String × Nat)
deriving Repr

/-- A row of the `asset` table (only what the compiler reads). -/
structure Asset where
  id : Nat
  name : String
deriving Repr, DecidableEq

/-- The backing store: post rows, existing tag ids, and counters supplying
fresh row ids and fresh random (uuid) slugs. -/
structure Store where
  posts : List Post
  tags : List Nat
  nextId : Nat
  nextUuid : Nat
deriving Repr

/-- Errors surfaced by the handlers: `BadRequestError(code)`, a database
unique-constraint violation (`err.code === '23505'`), and a JavaScript
`TypeError` raised by dereferencing `null`. -/
inductive ApiError : Type where
  | badRequest (code : String)
  | dbError (code : String)
  | typeError (msg : String)
deriving Repr, DecidableEq

/-- `const maxDebt = 3` — the reference-compilation depth ceiling. -/
def maxDebt : Nat := 3

/-- `isPostPublished` (post.controller.ts:28-39): effective visibility of a
post at time `now`; the source reads the clock via `new Date()`. -/
def isPostPublished (post : Option Post) (now : Nat) : Bool :=
  match post with
  | some p =>
    if p.status = "published" then
      if (match p.publishedFrom with
          | some f => decide (now < f)
          | none => false) then false
      else if (match p.publishedUntil with
          | some u => decide (u < now)
          | none => false) then false
      else true
    else false
  | none => false

/-! ### Store lookup helpers -/

def findOneById (s : Store) (i : Nat) : Option Post :=
  s.posts.find? (fun p => p.id == i)

def findOneBySlugPath (s : Store) (sp : String) : Option Post :=
  s.posts.find? (fun p => p.slugPath == sp)

def findByIds (s : Store) (ids : List Nat) : List Post :=
  s.posts.filter (fun p => ids.contains p.id)

/-- Model of `uuidv4()`: the `n`-th random slug.  Injective in `n` and,
like a real uuid, containing no `/` character. -/
def uuidv4 (n : Nat) : String :=
  String.mk ('u' :: 'u' :: 'i' :: 'd' :: '-' :: List.replicate n 'x')

/-- `pre` is a leading substring of `s` (character-wise). -/
def strHasPre (pre s : String) : Bool :=
  pre.data.isPrefixOf s.data

/-- Drop the first `n` characters of `s`. -/
def strDropChars (s : String) (n : Nat) : String :=
  String.mk (s.data.drop n)

/-! ### Version snapshotting -/

/-- `createPostVersion` (post.controller.ts:41-61): persist a new
`post_version` row copying the post's `name`, `meta` key/value pairs,
`tags` and `contentType`, with fresh random `slug`/`slugPath` and
`parent` pointing at the post.  Columns the source object does not set
take their column defaults. -/
def createPostVersion (s : Store) (post : Post) (author : Nat) : Post × Store :=
  let version : Post :=
    { id := s.nextId
      type := "post_version"
      name := post.name
      slug := uuidv4 s.nextUuid
      slugPath := uuidv4 (s.nextUuid + 1)
      status := "draft"
      publishedAt := none
      publishedFrom := none
      publishedUntil := none
      parentId := some post.id
      contentTypeId := post.contentTypeId
      meta := post.meta.map (fun m => { key := m.key, value := m.value })
      tags := post.tags
      content := none
      authorId := author
      updatedAt := 0
      contentTree := []
      references := []
      assetRefs := [] }
  (version,
   { s with
      posts := s.posts ++ [version]
      nextId := s.nextId + 1
      nextUuid := s.nextUuid + 2 })

/-! ### Spec-modelled collaborators

The content parser, meta updater, public mappers, prefix-rewrite query and
tree-descendants query live outside `src/`; they are modelled from the
spec's description of each. -/

/-- Result of parsing a post's structured content. -/
structure ParsedContent where
  content : List (String × JValue)
  assets : List (String × Nat)
  references : List (String × Nat)
deriving Repr

/-- Modelled from the spec: `parseContent` (post parser, not under `src/`)
extracts two mappings keyed by content path — `references` (content-post
links) and `assets` (asset links) — plus the content tree with link
markers left as placeholders.  The parse result is carried on the post
row; a referenced id of `0` stands for a null link. -/
def parseContent (p : Post) : ParsedContent :=
  { content := p.contentTree, assets := p.assetRefs, references := p.references }

/-- Modelled from the spec: `updateMeta` with the `^content` filter
replaces the post's content-prefixed meta entries with the given ones. -/
def updateMetaContent (p : Post) (entries : List PostMeta) : Post :=
  { p with
     meta := p.meta.filter (fun m => !(strHasPre "content" m.key)) ++ entries }

/-- Modelled from the spec: `updateMeta` without a filter replaces the
post's flattened meta with the given entries (restore overwrites the
stored content of the live post from the version's meta). -/
def updateMetaAll (p : Post) (entries : List PostMeta) : Post :=
  { p with meta := entries }

def metaFields (p : Post) : List (String × JValue) :=
  p.meta.map (fun m => (m.key, JValue.str m.value))

/-- Modelled from the spec: `mapPublicPostWithMeta` projects a post to its
sanitized public shape (id, name, slugPath, flattened meta). -/
def mapPublicPostWithMeta (p : Post) : JValue :=
  .obj [("id", .num p.id), ("name", .str p.name), ("slugPath", .str p.slugPath),
        ("meta", .obj (metaFields p))]

/-- Modelled from the spec: `mapPublicAsset` projects an asset to its
public shape. -/
def mapPublicAsset (a : Asset) : JValue :=
  .obj [("id", .num a.id), ("name", .str a.name)]

/-- Modelled from the spec: `getReplaceChildrenQuery` — one rewrite step:
a row whose `slugPath` equals `oldPath` or starts with `oldPath ++ "/"`
has that leading part replaced by `newPath`. -/
def rewriteSlugPath (oldPath newPath : String) (p : Post) : Post :=
  if p.slugPath == oldPath || strHasPre (oldPath ++ "/") p.slugPath then
    { p with slugPath := newPath ++ strDropChars p.slugPath oldPath.data.length }
  else p

/-- The bulk prefix-replace query applied to every row. -/
def applyReplaceChildren (posts : List Post) (oldPath newPath : String) : List Post :=
  posts.map (rewriteSlugPath oldPath newPath)

/-- Modelled from the spec: `findDescendants` returns every post whose
`slugPath` is the post's `slugPath` or begins with it plus `"/"`. -/
def findDescendants (s : Store) (p : Post) : List Post :=
  s.posts.filter
    (fun r => r.slugPath == p.slugPath || strHasPre (p.slugPath ++ "/") r.slugPath)

/-! ### The reference compiler -/

/-- JavaScript-object update: `_.set(content, key, v)` over the flat
content-path map. -/
def setKey (content : List (String × JValue)) (key : String) (v : JValue) :
    List (String × JValue) :=
  if content.any (fun kv => kv.1 == key) then
    content.map (fun kv => if kv.1 == key then (kv.1, v) else kv)
  else content ++ [(key, v)]

/-- `_.get(content, key)`. -/
def getKey (content : List (String × JValue)) (key : String) : Option JValue :=
  (content.find? (fun kv => kv.1 == key)).map (fun kv => kv.2)

/-- Worker for `uniqNat`: drop ids already seen. -/
def uniqNatGo (seen : List Nat) : List Nat → List Nat
  | [] => []
  | x :: xs => if seen.contains x then uniqNatGo seen xs else x :: uniqNatGo (x :: seen) xs

/-- `_.uniq` over ids, keeping first occurrences. -/
def uniqNat (l : List Nat) : List Nat :=
  uniqNatGo [] l

/-- Insertion into the `postsObj`/`assetsObj` dictionaries (JS property
assignment: a later assignment to the same key overrides). -/
def objInsert (m : List (Nat × JValue)) (k : Nat) (v : JValue) :
    List (Nat × JValue) :=
  if m.any (fun kv => kv.1 == k) then
    m.map (fun kv => if kv.1 == k then (kv.1, v) else kv)
  else m ++ [(k, v)]

def lookupNat (m : List (Nat × JValue)) (k : Nat) : Option JValue :=
  (m.find? (fun kv => kv.1 == k)).map (fun kv => kv.2)

/-- `post.id` of a compiled representation. -/
def jGetId : JValue → Option Nat
  | .obj fields =>
    match fields.find? (fun kv => kv.1 == "id") with
    | some (_, .num n) => some n
    | _ => none
  | _ => none

/-- `posts.forEach((post) => { postsObj[post.id] = post; })` over the
results of the sub-compiles: reading `post.id` from a `null` sub-result
raises a `TypeError`. -/
def buildPostsObj (posts : List (Option JValue)) :
    Except ApiError (List (Nat × JValue)) :=
  posts.foldlM
    (fun acc post? =>
      match post? with
      | none => .error (.typeError "Cannot read properties of null (reading id)")
      | some v =>
        match jGetId v with
        | some i => .ok (objInsert acc i v)
        | none => .ok acc)
    []

/-- `Object.keys(references).forEach(key =>
_.set(content, key, postsObj[references[key]]))`. -/
def injectRefs (references : List (String × Nat)) (postsObj : List (Nat × JValue))
    (content : List (String × JValue)) : List (String × JValue) :=
  references.foldl
    (fun c kv => setKey c kv.1 ((lookupNat postsObj kv.2).getD .undef)) content

/-- JS object spread `{...a, ...b}`: `a`'s keys in place with `b`'s
overrides, then `b`'s new keys. -/
def spreadMerge (a b : List (String × JValue)) : List (String × JValue) :=
  a.map (fun kv =>
    match b.find? (fun kv2 => kv2.1 == kv.1) with
    | some kv2 => (kv.1, kv2.2)
    | none => kv) ++
  b.filter (fun kv2 => !(a.any (fun kv => kv.1 == kv2.1)))

/-- Asset injection (post.controller.ts:714-733): batch-load the distinct
non-null asset ids and shallow-merge each asset's public shape into the
content at its path. -/
def injectAssets (assets : List Asset) (assetRefs : List (String × Nat))
    (content : List (String × JValue)) : List (String × JValue) :=
  let assetsIds := (uniqNat (assetRefs.map (fun kv => kv.2))).filter (fun i => i != 0)
  if 0 < assetsIds.length then
    let found := assets.filter (fun a => assetsIds.contains a.id)
    let assetsObj : List (Nat × JValue) := found.map (fun a => (a.id, mapPublicAsset a))
    assetRefs.foldl
      (fun c kv =>
        let existing :=
          match getKey c kv.1 with
          | some (.obj fs) => fs
          | _ => []
        let assetFs :=
          match lookupNat assetsObj kv.2 with
          | some (.obj fs) => fs
          | _ => []
        setKey c kv.1 (.obj (spreadMerge existing assetFs)))
      content
  else content

/-- `{...post, meta: {...post.meta, content}}`: embed the compiled content
under the public representation's meta. -/
def assemble (pub : JValue) (content : List (String × JValue)) : JValue :=
  let metaFs :=
    match pub with
    | .obj fields =>
      match fields.find? (fun kv => kv.1 == "meta") with
      | some (_, .obj fs) => fs
      | _ => []
    | _ => []
  let newMeta : JValue := .obj (spreadMerge metaFs [("content", .obj content)])
  match pub with
  | .obj fields => .obj (spreadMerge fields [("meta", newMeta)])
  | v => v

/-- The `{slugPath?, id?, allowNull?}` argument of `compilePost`. -/
structure CompileArgs where
  slugPath : Option String
  id : Option Nat
  allowNull : Bool
deriving Repr, DecidableEq

/-- Resolution step of `compilePost` (post.controller.ts:667-689): no
identifying input at all raises `invalid_post`; explicit `data` wins and
is taken as-is; otherwise look up by `slugPath`, else by `id`, and a
looked-up post must additionally be effectively visible at `now` — a miss
returns `null` under `allowNull` and raises `invalid_post` otherwise. -/
def resolvePost (s : Store) (args : CompileArgs) (data : Option Post) (now : Nat) :
    Except ApiError (Option Post) :=
  if args.slugPath.isNone && args.id.isNone && data.isNone then
    .error (.badRequest "invalid_post")
  else
    match data with
    | some p => .ok (some p)
    | none =>
      let post? : Option Post :=
        match args.slugPath with
        | some sp => s.posts.find? (fun p => p.slugPath == sp)
        | none =>
          match args.id with
          | some i => s.posts.find? (fun p => p.id == i)
          | none => none
      match post? with
      | none =>
        if args.allowNull then .ok none else .error (.badRequest "invalid_post")
      | some p =>
        if isPostPublished (some p) now then .ok (some p)
        else if args.allowNull then .ok none
        else .error (.badRequest "invalid_post")

/-- The distinct non-null referenced post ids:
`_.uniq(Object.values(references)).filter(id => !!id)`. -/
def referencesIdsOf (parsed : ParsedContent) : List Nat :=
  (uniqNat (parsed.references.map (fun kv => kv.2))).filter (fun i => i != 0)

/-- Tail of `compilePost`: after reference substitution produced
`contentRefs`, inject the assets and return
`{...post, meta: {...post.meta, content}}`. -/
def finishCompiled (assets : List Asset) (post : Post)
    (contentRefs : Except ApiError (List (String × JValue))) :
    Except ApiError (Option JValue) :=
  match contentRefs with
  | .error e => .error e
  | .ok c =>
    .ok (some (assemble (mapPublicPostWithMeta post)
      (injectAssets assets (parseContent post).assets c)))

/-- Core of `compilePost` (post.controller.ts:659-742), structurally
recursive on `fuel = maxDebt - debt`, so that the source's recursion guard
`referencesIds.length > 0 && debt < maxDebt` becomes the fuel pattern
match (`compilePost` below instantiates the correspondence): with no fuel
the substitution branch is skipped and reference placeholders stay in the
content; otherwise each distinct non-null referenced id is sub-compiled
one level deeper (allow-null) on one unit less fuel, the results are keyed
by id (`postsObj`), and every reference path is set to its sub-post. -/
def compilePostAux (s : Store) (assets : List Asset) (args : CompileArgs)
    (data : Option Post) (now : Nat) (debt : Nat) :
    (fuel : Nat) → Except ApiError (Option JValue)
  | 0 =>
    match resolvePost s args data now with
    | .error e => .error e
    | .ok none => .ok none
    | .ok (some post) =>
      finishCompiled assets post (.ok (parseContent post).content)
  | fuel' + 1 =>
    match resolvePost s args data now with
    | .error e => .error e
    | .ok none => .ok none
    | .ok (some post) =>
      let parsed := parseContent post
      let referencesIds := referencesIdsOf parsed
      let contentRefs : Except ApiError (List (String × JValue)) :=
        if 0 < referencesIds.length then
          match referencesIds.mapM
              (fun i =>
                compilePostAux s assets
                  { slugPath := none, id := some i, allowNull := true }
                  none now (debt + 1) fuel') with
          | .error e => .error e
          | .ok subPosts =>
            match buildPostsObj subPosts with
            | .error e => .error e
            | .ok postsObj => .ok (injectRefs parsed.references postsObj parsed.content)
        else .ok parsed.content
      finishCompiled assets post contentRefs

/-- `compilePost` (post.controller.ts:659-742) at recursion depth `debt`:
`fuel = maxDebt - debt` is positive exactly when `debt < maxDebt`, and the
recursive sub-compiles at `debt + 1` run on `fuel - 1 = maxDebt - (debt + 1)`,
so this wrapper carries the source's depth-counter semantics. -/
def compilePost (s : Store) (assets : List Asset) (args : CompileArgs)
    (data : Option Post) (now : Nat) (debt : Nat) : Except ApiError (Option JValue) :=
  compilePostAux s assets args data now debt (maxDebt - debt)

/-! ### PUT `/posts/:postId/content` -/

/-- The row update applied by the content route: replace the
`content.`-prefixed meta with the flattened body, stamp author and
`updatedAt`. -/
def contentPatch (post : Post) (body : List PostMeta) (user now : Nat) : Post :=
  { (updateMetaContent post
       (body.map (fun m => { key := "content." ++ m.key, value := m.value }))) with
      authorId := user
      updatedAt := now }

/-- Content update (post.controller.ts:307-370): resolve the post, snapshot
it, then replace its `content.`-prefixed meta with the flattened body. -/
def updatePostContent (s : Store) (postId : Nat) (body : List PostMeta)
    (user : Nat) (now : Nat) : Except ApiError Store :=
  match findOneById s postId with
  | none => .error (.badRequest "invalid_post")
  | some post =>
    let vs := createPostVersion s post user
    .ok { vs.2 with
            posts := vs.2.posts.map
              (fun r => if r.id == post.id then contentPatch post body user now else r) }

/-! ### PUT `/posts/:postId` (slug / name / tags update) -/

structure UpdatePostBody where
  slug : Option String
  name : Option String
  tags : Option (List Nat)
deriving Repr, DecidableEq

/-- Slug step of the update (post.controller.ts:468-487): when the body
carries a slug, set `slug`, recompute `slugPath` from the parent's path,
and run the bulk prefix rewrite over every row. -/
def slugStep (s : Store) (post : Post) (body : UpdatePostBody)
    (posts : List Post) : Post × List Post :=
  match body.slug with
  | some newSlug =>
    let oldSlugPath := post.slugPath
    let newSlugPath :=
      match post.parentId.bind (findOneById s) with
      | some par => par.slugPath ++ "/" ++ newSlug
      | none => newSlug
    ({ post with slug := newSlug, slugPath := newSlugPath },
     applyReplaceChildren posts oldSlugPath newSlugPath)
  | none => (post, posts)

/-- Name/tags/`updatedAt` tail of the update
(post.controller.ts:489-504). -/
def applyNameTags (s : Store) (post : Post) (body : UpdatePostBody)
    (now : Nat) : Post :=
  let post2 :=
    match body.name with
    | some n => { post with name := n }
    | none => post
  let post3 :=
    match body.tags with
    | some tagIds =>
      { post2 with
         tags := (tagIds.filter (fun i => i != 0)).filter
           (fun i => s.tags.contains i) }
    | none => post2
  { post3 with updatedAt := now }

/-- Slug/name/tags update (post.controller.ts:434-522): resolve the post
(version rows are rejected), snapshot it, on a slug change rewrite the
whole subtree's slug paths, then apply name/tags and save; a slug-path
collision surfaces as `duplicate_slug` via the unique constraint. -/
def updatePost (s : Store) (postId : Nat) (body : UpdatePostBody)
    (user : Nat) (now : Nat) : Except ApiError Store :=
  match findOneById s postId with
  | none => .error (.badRequest "invalid_post")
  | some post =>
    if post.type == "post_version" then .error (.badRequest "invalid_post_type")
    else
      let vs := createPostVersion s post user
      let step := slugStep s post body vs.2.posts
      let post4 := applyNameTags s step.1 body now
      if step.2.any (fun r => r.id != post4.id && r.slugPath == post4.slugPath) then
        .error (.badRequest "duplicate_slug")
      else
        .ok { vs.2 with
                posts := step.2.map (fun r => if r.id == post4.id then post4 else r) }

/-! ### PUT `/posts/publish` -/

/-- Apply the publish (or unpublish) column set of the bulk update. -/
def setPublishedFields (publish : Bool) (publishedFrom publishedUntil : Option Nat)
    (now : Nat) (p : Post) : Post :=
  if publish then
    { p with
       publishedAt := some now, status := "published",
       publishedFrom := publishedFrom, publishedUntil := publishedUntil,
       updatedAt := now }
  else
    { p with
       publishedAt := none, status := "draft",
       publishedFrom := none, publishedUntil := none, updatedAt := now }

/-- The recursive expansion: collect each post's descendants. -/
def expandRecursive (s : Store) (posts : List Post) : List Post :=
  posts.foldl (fun acc p => acc ++ findDescendants s p) []

/-- The id set the bulk update is applied to. -/
def publishTargets (s : Store) (recursive : Bool) (ids : List Nat) : List Nat :=
  let posts := findByIds s ids
  if recursive then (expandRecursive s posts).map (fun p => p.id)
  else posts.map (fun p => p.id)

/-- Bulk publish/unpublish (post.controller.ts:372-432): resolve the ids
(`invalid_ids` when none resolve), optionally expand to descendants, set
the publish columns in one bulk update, and re-read the originally
requested ids. -/
def publishPosts (s : Store) (publish recursive : Bool) (ids : List Nat)
    (publishedFrom publishedUntil : Option Nat) (now : Nat) :
    Except ApiError (List Post × Store) :=
  let posts := findByIds s ids
  if posts.length == 0 then .error (.badRequest "invalid_ids")
  else
    let targetIds := publishTargets s recursive ids
    let posts' := s.posts.map
      (fun r =>
        if targetIds.contains r.id then
          setPublishedFields publish publishedFrom publishedUntil now r
        else r)
    let s' := { s with posts := posts' }
    .ok (findByIds s' ids, s')

/-! ### POST `/posts/:postId/versions/:versionId` (restore) -/

/-- The row update applied by restore: overwrite the live post's meta,
`tags`, `content` and `name` from the version's stored values. -/
def restorePatch (post v : Post) : Post :=
  { (updateMetaAll post v.meta) with
      tags := v.tags
      content := v.content
      name := v.name }

/-- Version restore (post.controller.ts:592-637): resolve the post
(`invalid_post`), resolve the version by id, parent and type
(`invalid_post_version`), snapshot the pre-restore state, then overwrite
the live post's meta, `tags`, `content` and `name` from the version. -/
def restoreVersion (s : Store) (postId versionId : Nat) (user : Nat) :
    Except ApiError Store :=
  match findOneById s postId with
  | none => .error (.badRequest "invalid_post")
  | some post =>
    match s.posts.find?
        (fun p => p.id == versionId && p.parentId == some postId &&
                  p.type == "post_version") with
    | none => .error (.badRequest "invalid_post_version")
    | some postVersion =>
      let vs := createPostVersion s post user
      .ok { vs.2 with
              posts := vs.2.posts.map
                (fun r => if r.id == post.id then restorePatch post postVersion else r) }

/-! ### POST `/posts/:postId/copy` -/

structure CopyBody where
  parentId : Option Nat
  recursive : Bool
  name : String
  slug : String
deriving Repr, DecidableEq

/-- `slugPath.split('/')`, pop, `join('/')`: the path of the parent. -/
def parentPathOf (slugPath : String) : String :=
  String.intercalate "/" ((slugPath.splitOn "/").dropLast)

/-- Subtree rows ordered by ascending `slugPath`. -/
def sortBySlugPath (l : List Post) : List Post :=
  l.mergeSort (fun a b => !(decide (b.slugPath < a.slugPath)))

/-- The copy transaction body (post.controller.ts:210-278): resolve the
destination parent (`invalid_parent`), the source (`invalid_source`),
select the subtree (types folder/page/fragment, ascending path order) when
recursive, then create the copies sequentially, resolving each child's
parent among the copies already created; a slug-path collision raises the
store's unique-constraint error. -/
def copyTransaction (s : Store) (postId : Nat) (body : CopyBody) (user : Nat) :
    Except ApiError (List Post × Store) := do
  let parent? : Option Post ←
    match body.parentId with
    | some pid =>
      match findOneById s pid with
      | none => Except.error (.badRequest "invalid_parent")
      | some par => Except.ok (some par)
    | none => Except.ok none
  let sourcePost : Post ←
    match findOneById s postId with
    | none => Except.error (.badRequest "invalid_source")
    | some sp => Except.ok sp
  let children : List Post :=
    if body.recursive then
      sortBySlugPath (s.posts.filter
        (fun p =>
          (p.type == "folder" || p.type == "page" || p.type == "fragment") &&
          (p.slugPath == sourcePost.slugPath ||
           strHasPre (sourcePost.slugPath ++ "/") p.slugPath)))
    else [sourcePost]
  children.foldlM
    (fun (acc : List Post × Store) child => do
      let created := acc.1
      let st := acc.2
      let newSlugPath :=
        (match parent? with
         | some par => par.slugPath ++ "/"
         | none => "") ++ body.slug ++
        strDropChars child.slugPath sourcePost.slugPath.data.length
      let parentOfChild : Option Nat :=
        if child.id == sourcePost.id then parent?.map (fun p => p.id)
        else (created.find? (fun p => p.slugPath == parentPathOf newSlugPath)).map
          (fun p => p.id)
      if st.posts.any (fun r => r.slugPath == newSlugPath) then
        Except.error (.dbError "23505")
      else
        let newPost : Post :=
          { id := st.nextId
            type := child.type
            name := if child.id == sourcePost.id then body.name else child.name
            slug := if child.id == sourcePost.id then body.slug else child.slug
            slugPath := newSlugPath
            status := "draft"
            publishedAt := none
            publishedFrom := none
            publishedUntil := none
            parentId := parentOfChild
            contentTypeId := child.contentTypeId
            meta := child.meta.map (fun m => { key := m.key, value := m.value })
            tags := child.tags
            content := none
            authorId := user
            updatedAt := 0
            contentTree := []
            references := []
            assetRefs := [] }
        Except.ok (created ++ [newPost],
          { st with posts := st.posts ++ [newPost], nextId := st.nextId + 1 }))
    ([], s)

/-- The copy route including its catch block (post.controller.ts:279-286):
every error thrown inside the transaction is caught and re-thrown as
`duplicate_slug`. -/
def copyHandler (s : Store) (postId : Nat) (body : CopyBody) (user : Nat) :
    Except ApiError (List Post × Store) :=
  match copyTransaction s postId body user with
  | .ok r => .ok r
  | .error _ => .error (.badRequest "duplicate_slug")

/-! ### Concrete fixtures used by the theorems below -/

/-- A published root post with empty content; fixtures override fields. -/
def basePost : Post :=
  { id := 0, type := "page", name := "", slug := "", slugPath := "",
    status := "published", publishedAt := some 0, publishedFrom := none,
    publishedUntil := none, parentId := none, contentTypeId := none,
    meta := [], tags := [], content := none, authorId := 1, updatedAt := 0,
    contentTree := [], references := [], assetRefs := [] }

/-- A published post whose content holds one reference (`"r"`) to `refId`,
with the parser's placeholder left at that path. -/
def cyclePost (i : Nat) (sl : String) (refId : Nat) : Post :=
  { basePost with
      id := i
      name := sl
      slug := sl
      slugPath := sl
      contentTree := [("r", .str "placeholder")]
      references := [("r", refId)] }

/-- Three published posts whose references form the cycle a → b → c → a. -/
def cycleStore : Store :=
  { posts := [cyclePost 1 "a" 2, cyclePost 2 "b" 3, cyclePost 3 "c" 1],
    tags := [], nextId := 4, nextUuid := 0 }

/-- The compiled public shape of a `cyclePost` whose reference path holds
`inner`. -/
def cycleRep (i : Nat) (sl : String) (inner : JValue) : JValue :=
  .obj [("id", .num i), ("name", .str sl), ("slugPath", .str sl),
        ("meta", .obj [("content", .obj [("r", inner)])])]

/-- Compiling `a` in `cycleStore`: the cycle unwinds for three levels and
the reference reached at depth 3 keeps its placeholder. -/
def cycleExpected : JValue :=
  cycleRep 1 "a" (cycleRep 2 "b" (cycleRep 3 "c"
    (cycleRep 1 "a" (.str "placeholder"))))

/-- A published post `a` whose single content reference points at id 99,
which no row has. -/
def brokenStore : Store :=
  { posts := [{ basePost with
      id := 1
      slug := "a"
      slugPath := "a"
      contentTree := [("hero", .str "placeholder")]
      references := [("hero", 99)] }],
    tags := [], nextId := 2, nextUuid := 0 }

/-- A store holding the single post `a` (id 1). -/
def copySrcStore : Store :=
  { posts := [{ basePost with id := 1, slug := "a", slugPath := "a" }],
    tags := [], nextId := 2, nextUuid := 0 }

/-- A version snapshot row (id 2) of the live post id 1. -/
def c4VersionRow : Post :=
  { basePost with
      id := 2
      type := "post_version"
      name := "a"
      slug := uuidv4 0
      slugPath := uuidv4 1
      status := "draft"
      publishedAt := none
      parentId := some 1 }

/-- A live post `a` (id 1) together with its version row (id 2). -/
def c4Store : Store :=
  { posts := [{ basePost with id := 1, slug := "a", slugPath := "a" }, c4VersionRow],
    tags := [], nextId := 3, nextUuid := 2 }

/-- Claim C4's property, amended: under a recursive bulk publish the
expanded descendant set holds no `post_version` row and every
`post_version` row is left entirely unchanged by the update. -/
def VersionRowsUntouched (s : Store) (ids : List Nat)
    (pf pu : Option Nat) (now : Nat) : Prop :=
  (∀ v ∈ expandRecursive s (findByIds s ids), v.type ≠ "post_version") ∧
  (∀ res s', publishPosts s true true ids pf pu now = .ok (res, s') →
     ∀ i (hi : i < s.posts.length) (hi' : i < s'.posts.length),
       (s.posts[i]).type = "post_version" →
       s'.posts[i] = s.posts[i])

/-- Claim C1's depth-ceiling shape: compiling the post resolved by `i`
returns its public shape with the parsed content carried over unchanged
(assets merged, but no reference substituted). -/
def CeilingKeepsContent (s : Store) (assets : List Asset) (i : Nat)
    (allowNull : Bool) (now debt : Nat) (p : Post) : Prop :=
  compilePost s assets { slugPath := none, id := some i, allowNull := allowNull }
      none now debt =
    .ok (some (assemble (mapPublicPostWithMeta p)
      (injectAssets assets (parseContent p).assets (parseContent p).content)))

/-- `snap` is a faithful pre-edit snapshot of `post`: a `post_version` row
parented at `post`, copying its name, meta key/value pairs, tags and
content type. -/
def SnapshotOf (post snap : Post) : Prop :=
  snap.type = "post_version" ∧ snap.parentId = some post.id ∧
  snap.name = post.name ∧
  snap.meta = post.meta.map (fun m => { key := m.key, value := m.value }) ∧
  snap.tags = post.tags ∧ snap.contentTypeId = post.contentTypeId

/-- After the operation, exactly one row was added to the store: the
previously existing rows are still there (same ids, same order) and the
appended row is a snapshot of `post`'s pre-edit state. -/
def OneSnapshotAdded (s : Store) (post : Post) (t : Store) : Prop :=
  t.posts.length = s.posts.length + 1 ∧
  (∀ i (hi : i < s.posts.length) (hi' : i < t.posts.length),
     (t.posts[i]).id = (s.posts[i]).id) ∧
  ∃ snap, t.posts.getLast? = some snap ∧ SnapshotOf post snap

/-- Claim C7: the snapshot helper appends its row without touching the
existing rows, and each of the three mutating edit paths — content
update, slug/name/tag update, version restore — adds exactly one
`post_version` row carrying the pre-edit state whenever it succeeds. -/
def SnapshotDiscipline (s : Store) (user now : Nat) : Prop :=
  (∀ post author,
     (createPostVersion s post author).2.posts =
       s.posts ++ [(createPostVersion s post author).1] ∧
     SnapshotOf post (createPostVersion s post author).1) ∧
  (∀ pid body post t, findOneById s pid = some post →
     (∀ r ∈ s.posts, r.id < s.nextId) →
     updatePostContent s pid body user now = .ok t → OneSnapshotAdded s post t) ∧
  (∀ pid body post t, findOneById s pid = some post →
     (∀ r ∈ s.posts, r.id < s.nextId) →
     updatePost s pid body user now = .ok t → OneSnapshotAdded s post t) ∧
  (∀ pid vid post t, findOneById s pid = some post →
     (∀ r ∈ s.posts, r.id < s.nextId) →
     restoreVersion s pid vid user = .ok t → OneSnapshotAdded s post t)

/-- Claim C6: restore's error kinds and its effect — snapshot the
pre-restore state, then overwrite the live post's meta, tags, content
and name from the version's stored values. -/
def RestoreSpec (s : Store) (pid vid user : Nat) : Prop :=
  (findOneById s pid = none →
     restoreVersion s pid vid user = .error (.badRequest "invalid_post")) ∧
  ((findOneById s pid).isSome →
     (∀ r ∈ s.posts, r.id = vid → ¬(r.parentId = some pid ∧ r.type = "post_version")) →
     restoreVersion s pid vid user = .error (.badRequest "invalid_post_version")) ∧
  (∀ post v, findOneById s pid = some post →
     s.posts.find?
         (fun p => p.id == vid && p.parentId == some pid &&
                   p.type == "post_version") = some v →
     (∀ r ∈ s.posts, r.id < s.nextId) →
     ∃ t, restoreVersion s pid vid user = .ok t ∧
       OneSnapshotAdded s post t ∧
       (∀ i (hi : i < s.posts.length) (hi' : i < t.posts.length),
          (s.posts[i]).id = pid →
            (t.posts[i]).tags = v.tags ∧
            (t.posts[i]).content = v.content ∧
            (t.posts[i]).name = v.name ∧
            (t.posts[i]).meta = v.meta))

/-- Claim C10: a successful restore changes nothing of the live post
beyond tags/content/name/meta — slug, slug path, status, type, parent
and the publish window survive. -/
def RestoreFrame (s : Store) (pid vid user : Nat) : Prop :=
  ∀ post, findOneById s pid = some post →
    (s.posts.map (fun p => p.id)).Nodup →
    ∀ t, restoreVersion s pid vid user = .ok t →
      ∀ i (hi : i < s.posts.length) (hi' : i < t.posts.length),
        (s.posts[i]).id = pid →
          (t.posts[i]).slug = (s.posts[i]).slug ∧
          (t.posts[i]).slugPath = (s.posts[i]).slugPath ∧
          (t.posts[i]).status = (s.posts[i]).status ∧
          (t.posts[i]).type = (s.posts[i]).type ∧
          (t.posts[i]).parentId = (s.posts[i]).parentId ∧
          (t.posts[i]).publishedAt = (s.posts[i]).publishedAt ∧
          (t.posts[i]).publishedFrom = (s.posts[i]).publishedFrom ∧
          (t.posts[i]).publishedUntil = (s.posts[i]).publishedUntil

/-- Claim C8: after a successful slug rename, the post's own `slug` and
`slugPath` are updated, every other row whose path equalled the old path
or extended it across `/` has that leading part replaced by the new path,
and every row outside the old subtree keeps its path. -/
def RenameSpec (s : Store) (pid : Nat) (body : UpdatePostBody) (user now : Nat) : Prop :=
  ∀ post newSlug, findOneById s pid = some post → post.type ≠ "post_version" →
    body.slug = some newSlug →
    ∀ t, updatePost s pid body user now = .ok t →
      t.posts.length = s.posts.length + 1 ∧
      ∀ i (hi : i < s.posts.length) (hi' : i < t.posts.length),
        ((s.posts[i]).id = pid →
           (t.posts[i]).slug = newSlug ∧
           (t.posts[i]).slugPath =
             (match post.parentId.bind (findOneById s) with
              | some par => par.slugPath ++ "/" ++ newSlug
              | none => newSlug)) ∧
        ((s.posts[i]).id ≠ pid →
           (((s.posts[i]).slugPath = post.slugPath ∨
              strHasPre (post.slugPath ++ "/") (s.posts[i]).slugPath = true) →
             (t.posts[i]).slugPath =
               (match post.parentId.bind (findOneById s) with
                | some par => par.slugPath ++ "/" ++ newSlug
                | none => newSlug) ++
               strDropChars (s.posts[i]).slugPath post.slugPath.data.length) ∧
           (¬((s.posts[i]).slugPath = post.slugPath ∨
              strHasPre (post.slugPath ++ "/") (s.posts[i]).slugPath = true) →
             (t.posts[i]).slugPath = (s.posts[i]).slugPath))

/-- Claim C9: bulk publish/unpublish — `invalid_ids` when nothing
resolves; otherwise one bulk update stamps the publish (or unpublish)
columns on exactly the targeted rows, leaves the rest untouched, and the
route returns the posts re-read by the originally requested ids. -/
def PublishSpec (s : Store) (publish recursive : Bool) (ids : List Nat)
    (pf pu : Option Nat) (now : Nat) : Prop :=
  (findByIds s ids = [] →
     publishPosts s publish recursive ids pf pu now = .error (.badRequest "invalid_ids")) ∧
  (findByIds s ids ≠ [] →
     (∃ r, publishPosts s publish recursive ids pf pu now = .ok r) ∧
     ∀ res s', publishPosts s publish recursive ids pf pu now = .ok (res, s') →
       res = findByIds s' ids ∧
       s'.posts.length = s.posts.length ∧
       ∀ i (hi : i < s.posts.length) (hi' : i < s'.posts.length),
         (((publishTargets s recursive ids).contains (s.posts[i]).id = true →
            (s'.posts[i]).status = (if publish then "published" else "draft") ∧
            (s'.posts[i]).publishedAt = (if publish then some now else none) ∧
            (s'.posts[i]).publishedFrom = (if publish then pf else none) ∧
            (s'.posts[i]).publishedUntil = (if publish then pu else none) ∧
            (s'.posts[i]).updatedAt = now ∧
            (s'.posts[i]).id = (s.posts[i]).id ∧
            (s'.posts[i]).type = (s.posts[i]).type ∧
            (s'.posts[i]).name = (s.posts[i]).name ∧
            (s'.posts[i]).slug = (s.posts[i]).slug ∧
            (s'.posts[i]).slugPath = (s.posts[i]).slugPath ∧
            (s'.posts[i]).meta = (s.posts[i]).meta ∧
            (s'.posts[i]).tags = (s.posts[i]).tags) ∧
          ((publishTargets s recursive ids).contains (s.posts[i]).id = false →
            s'.posts[i] = s.posts[i])))

/-- The live post of the restore fixtures (id 1). -/
def wLive : Post :=
  { basePost with
      id := 1
      slug := "p"
      slugPath := "p"
      name := "new"
      tags := [9]
      meta := [{ key := "content.y", value := "2" }]
      contentTypeId := some 4 }

/-- A stored version (id 2) of `wLive` holding the older state. -/
def wVersion : Post :=
  { basePost with
      id := 2
      type := "post_version"
      parentId := some 1
      slug := uuidv4 0
      slugPath := uuidv4 1
      status := "draft"
      publishedAt := none
      name := "old"
      tags := [5]
      meta := [{ key := "content.x", value := "1" }]
      content := some "c" }

/-- Fixture store for the restore/snapshot witnesses. -/
def restoreStore : Store :=
  { posts := [wLive, wVersion], tags := [5, 9], nextId := 3, nextUuid := 2 }

/-- Fixture store for the rename witness: `a` (id 1) with child `a/b`
(id 2) and unrelated root `q` (id 3). -/
def renameStore : Store :=
  { posts :=
      [{ basePost with id := 1, slug := "a", slugPath := "a" },
       { basePost with id := 2, slug := "b", slugPath := "a/b", parentId := some 1 },
       { basePost with id := 3, slug := "q", slugPath := "q" }],
    tags := [], nextId := 4, nextUuid := 0 }

/-- Rename request body used by the rename witness. -/
def renameBody : UpdatePostBody :=
  { slug := some "z", name := none, tags := none }

end Burdy

/-! # Theorems -/

namespace Burdy

/-! ## Claim C5 : effective visibility -/

/-- C5: effective visibility is false unless `status == published`; when
published it is false if `publishedFrom` is set and `now < publishedFrom`,
false if `publishedUntil` is set and `now > publishedUntil`, and true
otherwise; an absent bound imposes no constraint on that side. -/
theorem visibility_window (p : Post) (now : Nat) :
    isPostPublished (some p) now = true ↔
      (p.status = "published" ∧
        (∀ f, p.publishedFrom = some f → ¬ now < f) ∧
        (∀ u, p.publishedUntil = some u → ¬ now > u)) := by
  unfold isPostPublished
  by_cases hs : p.status = "published" <;>
    cases hf : p.publishedFrom <;>
    cases hu : p.publishedUntil <;>
    simp [hs, hf, hu]

/-- Witness for C5 at a concrete post and time. -/
theorem visibility_window_witness :
    isPostPublished (some (cyclePost 1 "a" 2)) 5 = true ↔
      ((cyclePost 1 "a" 2).status = "published" ∧
        (∀ f, (cyclePost 1 "a" 2).publishedFrom = some f → ¬ (5 : Nat) < f) ∧
        (∀ u, (cyclePost 1 "a" 2).publishedUntil = some u → ¬ (5 : Nat) > u)) :=
  visibility_window (cyclePost 1 "a" 2) 5

/-! ## Claim C1 : depth-bounded reference compilation -/

/-- C1: `compilePost` terminates on every content graph — it is a total
function here, recursing only while `debt < maxDebt` (`maxDebt = 3`) —
and a reference reached at depth `maxDebt` is not compiled: the
substitution branch is skipped, so the parsed content (placeholder
included) is carried through unchanged; on the concrete cycle
a → b → c → a the compile returns after three levels with the depth-3
reference left as its placeholder. -/
theorem compile_depth_ceiling :
    (∀ (s : Store) (assets : List Asset) (i : Nat) (allowNull : Bool)
       (now debt : Nat) (p : Post), maxDebt ≤ debt →
       s.posts.find? (fun q => q.id == i) = some p →
       isPostPublished (some p) now = true →
       CeilingKeepsContent s assets i allowNull now debt p) ∧
    compilePost cycleStore [] { slugPath := some "a", id := none, allowNull := false }
        none 0 0 = .ok (some cycleExpected) := by
  constructor
  · intro s assets i allowNull now debt p hdebt hfind hpub
    unfold CeilingKeepsContent compilePost
    rw [Nat.sub_eq_zero_of_le hdebt]
    simp [compilePostAux, resolvePost, hfind, hpub, finishCompiled]
  · rfl

/-- Witness for C1's quantified part: the cycle's post `a` compiled
directly at the ceiling depth 3 keeps its parsed content. -/
theorem compile_depth_ceiling_witness :
    maxDebt ≤ 3 ∧ CeilingKeepsContent cycleStore [] 1 true 0 3 (cyclePost 1 "a" 2) :=
  ⟨by decide,
   compile_depth_ceiling.1 cycleStore [] 1 true 0 3 (cyclePost 1 "a" 2)
     (by decide) rfl rfl⟩

/-! ## Claim C2 : broken references during substitution -/

/-- C2 (code bug): the sub-compiles are indeed invoked with
`allowNull: true`, but the null result of a broken reference is then
dereferenced — `posts.forEach((post) => { postsObj[post.id] = post; })` —
so a single missing referenced post makes the whole compilation throw a
`TypeError` instead of degrading to omission: compiling post `a`, whose
only reference points at the nonexistent id 99, errors. -/
theorem broken_reference_type_error :
    compilePost brokenStore [] { slugPath := some "a", id := none, allowNull := false }
        none 0 0 =
      .error (.typeError "Cannot read properties of null (reading id)") := rfl

/-! ## Claim C3 : copy error kinds -/

/-- C3 (code bug): the copy route's catch block rethrows every
transaction failure as `duplicate_slug`, so an unresolvable destination
parent (id 42) and an unresolvable source (id 99) are both reported as
`duplicate_slug` rather than as `invalid_parent` / `invalid_source`
(which the transaction body does throw internally, before the catch
swallows them). -/
theorem copy_error_kinds_flattened :
    copyHandler copySrcStore 1
        { parentId := some 42, recursive := false, name := "n", slug := "z" } 7 =
      .error (.badRequest "duplicate_slug") ∧
    copyHandler copySrcStore 99
        { parentId := none, recursive := false, name := "n", slug := "z" } 7 =
      .error (.badRequest "duplicate_slug") :=
  ⟨rfl, rfl⟩

/-! ## Claim C4 : publish cascades and version rows -/

/-- Membership in a fold that appends chunks. -/
theorem mem_foldl_append {α β : Type} (f : β → List α) (ps : List β)
    (acc : List α) (x : α) :
    x ∈ ps.foldl (fun a p => a ++ f p) acc ↔ x ∈ acc ∨ ∃ p ∈ ps, x ∈ f p := by
  induction ps generalizing acc with
  | nil => simp
  | cons p ps ih =>
    simp only [List.foldl_cons, ih, List.mem_append, List.mem_cons]
    constructor
    · rintro (⟨h | h⟩ | ⟨q, hq, hx⟩)
      · exact Or.inl h
      · exact Or.inr ⟨p, Or.inl rfl, h⟩
      · exact Or.inr ⟨q, Or.inr hq, hx⟩
    · rintro (h | ⟨q, rfl | hq, hx⟩)
      · exact Or.inl (Or.inl h)
      · exact Or.inl (Or.inr hx)
      · exact Or.inr ⟨q, hq, hx⟩

/-- A true `strHasPre` exposes the leading characters. -/
theorem strHasPre_exists {pre s : String} (h : strHasPre pre s = true) :
    ∃ t, s.data = pre.data ++ t := by
  unfold strHasPre at h
  obtain ⟨t, ht⟩ := List.isPrefixOf_iff_prefix.mp h
  exact ⟨t, ht.symm⟩

/-- Rows selected by `findDescendants` carry the ancestor's path: they
equal it or extend it across a `/`. -/
theorem mem_findDescendants {s : Store} {p v : Post}
    (h : v ∈ findDescendants s p) :
    v ∈ s.posts ∧ (v.slugPath = p.slugPath ∨ '/' ∈ v.slugPath.data) := by
  unfold findDescendants at h
  rw [List.mem_filter] at h
  obtain ⟨hmem, hcond⟩ := h
  refine ⟨hmem, ?_⟩
  rw [Bool.or_eq_true] at hcond
  rcases hcond with hc | hc
  · exact Or.inl (by simpa using hc)
  · obtain ⟨t, ht⟩ := strHasPre_exists hc
    rw [String.data_append] at ht
    refine Or.inr ?_
    rw [ht]
    simp [String.data]

/-- C4 counterexample: in `c4Store` a recursive bulk publish aimed
directly at the version row id 2 expands to exactly that `post_version`
row and sets `status = published` on it, so the expanded descendant set
does contain a `post_version` row and a `post_version` row ends up
published. -/
theorem recursive_publish_hits_version_row :
    expandRecursive c4Store (findByIds c4Store [2]) = [c4VersionRow] ∧
    c4VersionRow.type = "post_version" ∧
    (publishPosts c4Store true true [2] none none 10).toOption.map
        (fun r => (findOneById r.2 2).map (fun p => (p.type, p.status))) =
      some (some ("post_version", "published")) :=
  ⟨rfl, rfl, rfl⟩

/-- C4 amended: a recursive bulk publish whose requested ids resolve only
to non-version posts — in a store with distinct row ids whose
`post_version` rows have slash-free slug paths distinct from the targeted
posts' paths (as the random uuid slugs of snapshots are) — expands to a
descendant set free of `post_version` rows, and leaves every
`post_version` row unchanged, so versions keep their non-published
status. -/
theorem publish_cascade_spares_versions (s : Store) (ids : List Nat)
    (pf pu : Option Nat) (now : Nat)
    (hnodup : (s.posts.map (fun p => p.id)).Nodup)
    (_hlive : ∀ p ∈ findByIds s ids, p.type ≠ "post_version")
    (hver : ∀ v ∈ s.posts, v.type = "post_version" →
       (∀ c ∈ v.slugPath.data, c ≠ '/') ∧
       ∀ p ∈ findByIds s ids, v.slugPath ≠ p.slugPath) :
    VersionRowsUntouched s ids pf pu now := by
  have hnover : ∀ v ∈ expandRecursive s (findByIds s ids), v.type ≠ "post_version" := by
    intro v hv hvty
    unfold expandRecursive at hv
    rw [mem_foldl_append] at hv
    rcases hv with h | ⟨p, hp, hvd⟩
    · simp at h
    obtain ⟨hvmem, hpath⟩ := mem_findDescendants hvd
    obtain ⟨hslash, hdist⟩ := hver v hvmem hvty
    rcases hpath with heq | hmem
    · exact hdist p hp heq
    · exact hslash '/' hmem rfl
  refine ⟨hnover, ?_⟩
  intro res s' hok i hi hi' hity
  unfold publishPosts at hok
  by_cases hlen : (findByIds s ids).length == 0
  · simp [hlen] at hok
  simp only [hlen, Bool.false_eq_true, if_false, Except.ok.injEq, Prod.mk.injEq] at hok
  obtain ⟨-, hs'⟩ := hok
  have hcontains :
      (publishTargets s true ids).contains (s.posts[i]).id = false := by
    by_contra hc
    rw [Bool.not_eq_false, List.contains_eq_any_beq, List.any_eq_true] at hc
    obtain ⟨j, hj, hbeq⟩ := hc
    unfold publishTargets at hj
    simp only [if_true] at hj
    rw [List.mem_map] at hj
    obtain ⟨d, hd, rfl⟩ := hj
    have hdid : d.id = (s.posts[i]).id := by
      have := beq_iff_eq.mp hbeq
      omega
    have hdmem : d ∈ s.posts := by
      unfold expandRecursive at hd
      rw [mem_foldl_append] at hd
      rcases hd with h | ⟨p, hp, hdd⟩
      · simp at h
      · exact (mem_findDescendants hdd).1
    have hdeq : d = s.posts[i] :=
      List.inj_on_of_nodup_map hnodup hdmem (List.getElem_mem hi) hdid
    exact hnover d hd (hdeq ▸ hity)
  subst hs'
  simp only [List.getElem_map, hcontains, Bool.false_eq_true, if_false]

/-! ## Shared inversion and indexing lemmas -/

theorem findOneById_id {s : Store} {pid : Nat} {post : Post}
    (h : findOneById s pid = some post) : post.id = pid := by
  have hp := List.find?_some h
  exact beq_iff_eq.mp hp

theorem findOneById_mem {s : Store} {pid : Nat} {post : Post}
    (h : findOneById s pid = some post) : post ∈ s.posts :=
  List.mem_of_find?_eq_some h

theorem getElem_map_append {α : Type} (l : List α) (v : α) (g : α → α) (i : Nat)
    (hi : i < l.length) (hi' : i < ((l ++ [v]).map g).length) :
    ((l ++ [v]).map g)[i] = g l[i] := by
  have hi2 : i < (l.map g).length := by simpa using hi
  simp only [List.map_append]
  rw [List.getElem_append_left hi2, List.getElem_map]

theorem getLast?_map_concat {α : Type} (l : List α) (v : α) (g : α → α) :
    ((l ++ [v]).map g).getLast? = some (g v) := by
  rw [List.map_append]
  simp

/-- The fresh snapshot row is distinct from the edited post's id. -/
theorem snapshot_id_ne {s : Store} {post : Post} (author : Nat)
    (hmem : post ∈ s.posts) (hwf : ∀ r ∈ s.posts, r.id < s.nextId) :
    ((createPostVersion s post author).1.id == post.id) = false := by
  have := hwf post hmem
  simp only [createPostVersion]
  exact beq_eq_false_iff_ne.mpr (by omega)

/-- The appended row is a faithful snapshot. -/
theorem snapshotOf_createPostVersion (s : Store) (post : Post) (author : Nat) :
    SnapshotOf post (createPostVersion s post author).1 := by
  simp [createPostVersion, SnapshotOf]

/-- Stores of the shape `(rows ++ [snapshot]).map g` satisfy
`OneSnapshotAdded` when `g` preserves ids and the mapped snapshot is a
faithful snapshot. -/
theorem oneSnapshotAdded_shape {s : Store} {post v : Post} {g : Post → Post}
    (hgid : ∀ r, (g r).id = r.id)
    (hsnap : SnapshotOf post (g v))
    (tags' : List Nat) (nid nuuid : Nat) :
    OneSnapshotAdded s post
      { posts := (s.posts ++ [v]).map g, tags := tags',
        nextId := nid, nextUuid := nuuid } := by
  refine ⟨by simp, ?_, g v, ?_, hsnap⟩
  · intro i hi hi'
    rw [getElem_map_append _ _ _ _ hi hi']
    exact hgid _
  · show (((s.posts ++ [v]).map g).getLast?) = some (g v)
    exact getLast?_map_concat _ _ _

theorem createPostVersion_posts (s : Store) (post : Post) (author : Nat) :
    (createPostVersion s post author).2.posts =
      s.posts ++ [(createPostVersion s post author).1] := rfl

theorem rewriteSlugPath_id (o n : String) (p : Post) :
    (rewriteSlugPath o n p).id = p.id := by
  unfold rewriteSlugPath
  split <;> rfl

/-- The prefix rewrite only touches `slugPath`: snapshots stay
snapshots. -/
theorem snapshotOf_rewrite {post v : Post} (o n : String)
    (h : SnapshotOf post v) : SnapshotOf post (rewriteSlugPath o n v) := by
  unfold rewriteSlugPath
  split
  · obtain ⟨h1, h2, h3, h4, h5, h6⟩ := h
    exact ⟨h1, h2, h3, h4, h5, h6⟩
  · exact h

theorem applyNameTags_id (s : Store) (p : Post) (body : UpdatePostBody)
    (now : Nat) : (applyNameTags s p body now).id = p.id := by
  unfold applyNameTags
  cases body.name <;> cases body.tags <;> simp

theorem applyNameTags_slug (s : Store) (p : Post) (body : UpdatePostBody)
    (now : Nat) : (applyNameTags s p body now).slug = p.slug := by
  unfold applyNameTags
  cases body.name <;> cases body.tags <;> simp

theorem applyNameTags_slugPath (s : Store) (p : Post) (body : UpdatePostBody)
    (now : Nat) : (applyNameTags s p body now).slugPath = p.slugPath := by
  unfold applyNameTags
  cases body.name <;> cases body.tags <;> simp

/-- Replacing the row with the saved post preserves every row's id. -/
theorem replaceById_id (q r : Post) : (if r.id == q.id then q else r).id = r.id := by
  by_cases h : (r.id == q.id) = true
  · rw [if_pos h]
    exact (beq_iff_eq.mp h).symm
  · rw [Bool.not_eq_true] at h
    rw [if_neg (by simp [h])]

/-- Mapping after the bulk prefix rewrite is one composed map. -/
theorem map_replace_map (posts : List Post) (o n : String) (g : Post → Post) :
    (applyReplaceChildren posts o n).map g =
      posts.map (fun r => g (rewriteSlugPath o n r)) := by
  unfold applyReplaceChildren
  rw [List.map_map]
  rfl

/-- Inversion of a successful slug/name/tags update. -/
theorem updatePost_ok_inv {s : Store} {pid : Nat} {body : UpdatePostBody}
    {user now : Nat} {t : Store} {post : Post}
    (hpost : findOneById s pid = some post)
    (hok : updatePost s pid body user now = .ok t) :
    t = { (createPostVersion s post user).2 with
            posts := (slugStep s post body (createPostVersion s post user).2.posts).2.map
              (fun r =>
                if r.id == (applyNameTags s
                    (slugStep s post body (createPostVersion s post user).2.posts).1
                    body now).id
                then applyNameTags s
                    (slugStep s post body (createPostVersion s post user).2.posts).1
                    body now
                else r) } := by
  unfold updatePost at hok
  simp only [hpost] at hok
  by_cases hty : (post.type == "post_version") = true
  · rw [if_pos hty] at hok
    cases hok
  · rw [Bool.not_eq_true] at hty
    rw [if_neg (by simp [hty])] at hok
    by_cases hdup :
        ((slugStep s post body (createPostVersion s post user).2.posts).2.any
          (fun r =>
            r.id != (applyNameTags s
                (slugStep s post body (createPostVersion s post user).2.posts).1
                body now).id &&
            r.slugPath == (applyNameTags s
                (slugStep s post body (createPostVersion s post user).2.posts).1
                body now).slugPath)) = true
    · rw [if_pos hdup] at hok
      cases hok
    · rw [Bool.not_eq_true] at hdup
      rw [if_neg (by simp [hdup])] at hok
      injection hok with h
      exact h.symm

/-- Shape of a successful restore. -/
theorem restoreVersion_ok {s : Store} {pid vid user : Nat} {post v : Post}
    (hpost : findOneById s pid = some post)
    (hv : s.posts.find?
        (fun p => p.id == vid && p.parentId == some pid &&
                  p.type == "post_version") = some v) :
    restoreVersion s pid vid user = .ok
      { posts := (s.posts ++ [(createPostVersion s post user).1]).map
          (fun r => if r.id == post.id then restorePatch post v else r),
        tags := s.tags, nextId := s.nextId + 1, nextUuid := s.nextUuid + 2 } := by
  unfold restoreVersion
  simp only [hpost, hv]
  rfl

/-- Shape of a successful content update. -/
theorem updatePostContent_ok {s : Store} {pid : Nat} {body : List PostMeta}
    {user now : Nat} {post : Post}
    (hpost : findOneById s pid = some post) :
    updatePostContent s pid body user now = .ok
      { posts := (s.posts ++ [(createPostVersion s post user).1]).map
          (fun r => if r.id == post.id then contentPatch post body user now else r),
        tags := s.tags, nextId := s.nextId + 1, nextUuid := s.nextUuid + 2 } := by
  unfold updatePostContent
  simp only [hpost]
  rfl

/-- Witness for C4's amended theorem: publishing the live post id 1 of
`c4Store` recursively spares its version row. -/
theorem publish_cascade_spares_versions_witness :
    (c4Store.posts.map (fun p => p.id)).Nodup ∧
    (∀ p ∈ findByIds c4Store [1], p.type ≠ "post_version") ∧
    (∀ v ∈ c4Store.posts, v.type = "post_version" →
       (∀ c ∈ v.slugPath.data, c ≠ '/') ∧
       ∀ p ∈ findByIds c4Store [1], v.slugPath ≠ p.slugPath) ∧
    VersionRowsUntouched c4Store [1] none none 10 :=
  ⟨by decide, by decide, by decide,
   publish_cascade_spares_versions c4Store [1] none none 10
     (by decide) (by decide) (by decide)⟩

/-! ## Claim C6 : version restore -/

/-- C6: restoring version `vid` onto post `pid` fails with `invalid_post`
when the post id does not resolve; fails with `invalid_post_version` when
no row has that id together with `parent = pid` and
`type = post_version`; and on success first appends a snapshot of the
pre-restore state, then overwrites the live post's tags, content, name
(and stored meta) with the version's stored values. -/
theorem restore_contract (s : Store) (pid vid user : Nat) :
    RestoreSpec s pid vid user := by
  unfold RestoreSpec
  refine ⟨?_, ?_, ?_⟩
  · intro hnone
    unfold restoreVersion
    simp only [hnone]
  · intro hsome hnover
    obtain ⟨post, hpost⟩ := Option.isSome_iff_exists.mp hsome
    have hfnone : s.posts.find?
        (fun p => p.id == vid && p.parentId == some pid &&
                  p.type == "post_version") = none := by
      rw [List.find?_eq_none]
      intro r hr hcon
      rw [Bool.and_eq_true, Bool.and_eq_true] at hcon
      obtain ⟨⟨h1, h2⟩, h3⟩ := hcon
      exact hnover r hr (beq_iff_eq.mp h1) ⟨beq_iff_eq.mp h2, beq_iff_eq.mp h3⟩
    unfold restoreVersion
    simp only [hpost, hfnone]
  · intro post v hpost hv hwf
    have hmem := findOneById_mem hpost
    have hid := findOneById_id hpost
    refine ⟨_, restoreVersion_ok hpost hv, ?_, ?_⟩
    · apply oneSnapshotAdded_shape
      · intro r
        by_cases h : (r.id == post.id) = true
        · have hr : r.id = post.id := beq_iff_eq.mp h
          simp [h, restorePatch, updateMetaAll, hr]
        · rw [Bool.not_eq_true] at h
          simp [h]
      · have hne := snapshot_id_ne user hmem hwf
        simp only [hne, Bool.false_eq_true, if_false]
        exact snapshotOf_createPostVersion s post user
    · intro i hi hi' hidr
      have hrow := getElem_map_append s.posts (createPostVersion s post user).1
          (fun r => if r.id == post.id then restorePatch post v else r) i hi hi'
      simp only [List.get_eq_getElem]
      rw [hrow]
      simp [restorePatch, updateMetaAll, hidr, hid]

/-- Witness for C6 on the concrete fixture store. -/
theorem restore_contract_witness : RestoreSpec restoreStore 1 2 7 :=
  restore_contract restoreStore 1 2 7

/-! ## Claim C10 : restore's frame -/

/-- C10: a successful restore leaves the live post's slug, slug path,
status, type, parent and publish window fields exactly as they were. -/
theorem restore_frame (s : Store) (pid vid user : Nat) :
    RestoreFrame s pid vid user := by
  intro post hpost hnodup t hok i hi hi' hidr
  have hid := findOneById_id hpost
  cases hfv : s.posts.find?
      (fun p => p.id == vid && p.parentId == some pid &&
                p.type == "post_version") with
  | none =>
    have herr : restoreVersion s pid vid user =
        .error (.badRequest "invalid_post_version") := by
      unfold restoreVersion
      simp only [hpost, hfv]
    rw [herr] at hok
    cases hok
  | some v =>
    rw [restoreVersion_ok hpost hfv] at hok
    injection hok with ht
    subst ht
    have hrow := getElem_map_append s.posts (createPostVersion s post user).1
        (fun r => if r.id == post.id then restorePatch post v else r) i hi hi'
    have hre : s.posts[i] = post := by
      apply List.inj_on_of_nodup_map hnodup (List.getElem_mem hi)
        (findOneById_mem hpost)
      rw [hidr, hid]
    simp only [List.get_eq_getElem]
    rw [hrow]
    simp [restorePatch, updateMetaAll, hidr, hid, hre]

/-- Witness for C10 on the concrete fixture store. -/
theorem restore_frame_witness : RestoreFrame restoreStore 1 2 7 :=
  restore_frame restoreStore 1 2 7

/-! ## Claim C7 : one snapshot per mutating edit -/

/-- C7: `createPostVersion` appends its row without touching any existing
row, and every successful run of the three mutating edit paths — content
update, slug/name/tag update, version restore — adds exactly one new row:
a `post_version` snapshot whose parent is the edited post and which
carries the pre-edit name, meta key/value pairs, tags and content type. -/
theorem snapshot_discipline (s : Store) (user now : Nat) :
    SnapshotDiscipline s user now := by
  refine ⟨?_, ?_, ?_, ?_⟩
  · intro post author
    exact ⟨rfl, snapshotOf_createPostVersion s post author⟩
  · intro pid body post t hpost hwf hok
    rw [updatePostContent_ok hpost] at hok
    injection hok with ht
    subst ht
    apply oneSnapshotAdded_shape
    · intro r
      by_cases h : (r.id == post.id) = true
      · rw [if_pos h]
        have hr : r.id = post.id := beq_iff_eq.mp h
        simp [contentPatch, updateMetaContent, hr]
      · rw [Bool.not_eq_true] at h
        rw [if_neg (by simp [h])]
    · have hne := snapshot_id_ne user (findOneById_mem hpost) hwf
      rw [if_neg (by simp [hne])]
      exact snapshotOf_createPostVersion s post user
  · intro pid body post t hpost hwf hok
    have ht := updatePost_ok_inv hpost hok
    subst ht
    cases hbs : body.slug with
    | none =>
      simp only [slugStep, hbs, createPostVersion_posts]
      apply oneSnapshotAdded_shape
      · intro r
        exact replaceById_id _ _
      · have hne : ((createPostVersion s post user).1.id ==
            (applyNameTags s post body now).id) = false := by
          rw [applyNameTags_id]
          exact snapshot_id_ne user (findOneById_mem hpost) hwf
        rw [if_neg (by simp [hne])]
        exact snapshotOf_createPostVersion s post user
    | some ns =>
      simp only [slugStep, hbs, createPostVersion_posts, map_replace_map]
      apply oneSnapshotAdded_shape
      · intro r
        rw [replaceById_id, rewriteSlugPath_id]
      · have hne : ((rewriteSlugPath post.slugPath
              (match post.parentId.bind (findOneById s) with
               | some par => par.slugPath ++ "/" ++ ns
               | none => ns)
              (createPostVersion s post user).1).id ==
            (applyNameTags s
              { post with
                  slug := ns
                  slugPath :=
                    match post.parentId.bind (findOneById s) with
                    | some par => par.slugPath ++ "/" ++ ns
                    | none => ns }
              body now).id) = false := by
          rw [rewriteSlugPath_id, applyNameTags_id]
          exact snapshot_id_ne user (findOneById_mem hpost) hwf
        rw [if_neg (by simp [hne])]
        exact snapshotOf_rewrite _ _ (snapshotOf_createPostVersion s post user)
  · intro pid vid post t hpost hwf hok
    cases hfv : s.posts.find?
        (fun p => p.id == vid && p.parentId == some pid &&
                  p.type == "post_version") with
    | none =>
      have herr : restoreVersion s pid vid user =
          .error (.badRequest "invalid_post_version") := by
        unfold restoreVersion
        simp only [hpost, hfv]
      rw [herr] at hok
      cases hok
    | some v =>
      rw [restoreVersion_ok hpost hfv] at hok
      injection hok with ht
      subst ht
      apply oneSnapshotAdded_shape
      · intro r
        by_cases h : (r.id == post.id) = true
        · rw [if_pos h]
          have hr : r.id = post.id := beq_iff_eq.mp h
          simp [restorePatch, updateMetaAll, hr]
        · rw [Bool.not_eq_true] at h
          rw [if_neg (by simp [h])]
      · have hne := snapshot_id_ne user (findOneById_mem hpost) hwf
        rw [if_neg (by simp [hne])]
        exact snapshotOf_createPostVersion s post user

/-- Witness for C7 on the concrete fixture store. -/
theorem snapshot_discipline_witness : SnapshotDiscipline restoreStore 7 5 :=
  snapshot_discipline restoreStore 7 5

/-! ## Claim C8 : rename rewrites exactly the old subtree -/

/-- C8: after a successful rename of post `pid` to `newSlug`, the post's
`slug` and `slugPath` are updated to the path computed from its parent;
every other row whose old path equalled the renamed post's old path or
extended it across `/` has that leading part replaced by the new path;
and every row outside the old subtree keeps its path unchanged. -/
theorem rename_rewrites_subtree (s : Store) (pid : Nat) (body : UpdatePostBody)
    (user now : Nat) : RenameSpec s pid body user now := by
  intro post newSlug hpost _hty hslug t hok
  have hid := findOneById_id hpost
  have ht := updatePost_ok_inv hpost hok
  subst ht
  simp only [slugStep, hslug, createPostVersion_posts, map_replace_map]
  refine ⟨by simp, ?_⟩
  intro i hi hi'
  have hrow := getElem_map_append s.posts (createPostVersion s post user).1
      (fun r =>
        if (rewriteSlugPath post.slugPath
              (match post.parentId.bind (findOneById s) with
               | some par => par.slugPath ++ "/" ++ newSlug
               | none => newSlug) r).id ==
            (applyNameTags s
              { post with
                  slug := newSlug
                  slugPath :=
                    match post.parentId.bind (findOneById s) with
                    | some par => par.slugPath ++ "/" ++ newSlug
                    | none => newSlug }
              body now).id
        then applyNameTags s
              { post with
                  slug := newSlug
                  slugPath :=
                    match post.parentId.bind (findOneById s) with
                    | some par => par.slugPath ++ "/" ++ newSlug
                    | none => newSlug }
              body now
        else rewriteSlugPath post.slugPath
              (match post.parentId.bind (findOneById s) with
               | some par => par.slugPath ++ "/" ++ newSlug
               | none => newSlug) r) i hi hi'
  rw [hrow]
  constructor
  · intro hidr
    have hcond : ((rewriteSlugPath post.slugPath
          (match post.parentId.bind (findOneById s) with
           | some par => par.slugPath ++ "/" ++ newSlug
           | none => newSlug) s.posts[i]).id ==
        (applyNameTags s
          { post with
              slug := newSlug
              slugPath :=
                match post.parentId.bind (findOneById s) with
                | some par => par.slugPath ++ "/" ++ newSlug
                | none => newSlug }
          body now).id) = true := by
      rw [rewriteSlugPath_id, applyNameTags_id]
      exact beq_iff_eq.mpr (hidr.trans hid.symm)
    rw [if_pos hcond]
    exact ⟨applyNameTags_slug _ _ _ _, applyNameTags_slugPath _ _ _ _⟩
  · intro hidr
    have hcond : ((rewriteSlugPath post.slugPath
          (match post.parentId.bind (findOneById s) with
           | some par => par.slugPath ++ "/" ++ newSlug
           | none => newSlug) s.posts[i]).id ==
        (applyNameTags s
          { post with
              slug := newSlug
              slugPath :=
                match post.parentId.bind (findOneById s) with
                | some par => par.slugPath ++ "/" ++ newSlug
                | none => newSlug }
          body now).id) = false := by
      rw [rewriteSlugPath_id, applyNameTags_id]
      exact beq_eq_false_iff_ne.mpr (fun h => hidr (h.trans hid))
    rw [if_neg (by simp [hcond])]
    constructor
    · intro hmatch
      unfold rewriteSlugPath
      have hcb : (s.posts[i].slugPath == post.slugPath ||
          strHasPre (post.slugPath ++ "/") s.posts[i].slugPath) = true := by
        rcases hmatch with h | h
        · simp [h]
        · simp [h]
      rw [if_pos hcb]
    · intro hmatch
      unfold rewriteSlugPath
      have hcb : (s.posts[i].slugPath == post.slugPath ||
          strHasPre (post.slugPath ++ "/") s.posts[i].slugPath) = false := by
        rw [Bool.or_eq_false_iff]
        constructor
        · exact beq_eq_false_iff_ne.mpr (fun h => hmatch (Or.inl h))
        · rw [Bool.eq_false_iff]
          exact fun h => hmatch (Or.inr h)
      rw [if_neg (by simp [hcb])]

/-- Witness for C8 on the concrete rename fixture (rename `a` to `z`
above child `a/b` and unrelated root `q`). -/
theorem rename_rewrites_subtree_witness : RenameSpec renameStore 1 renameBody 7 5 :=
  rename_rewrites_subtree renameStore 1 renameBody 7 5

/-! ## Claim C9 : bulk publish / unpublish -/

/-- C9: when the requested ids resolve to no posts the route fails with
`invalid_ids`; otherwise the bulk update stamps
`status`/`publishedAt`/`publishedFrom`/`publishedUntil`/`updatedAt` on
every targeted row — the publish window from the request on publish,
cleared with `status = draft` on unpublish — leaves all other rows
untouched, and the route returns the posts re-read by the originally
requested ids. -/
theorem publish_contract (s : Store) (publish recursive : Bool) (ids : List Nat)
    (pf pu : Option Nat) (now : Nat) :
    PublishSpec s publish recursive ids pf pu now := by
  refine ⟨?_, ?_⟩
  · intro hempty
    unfold publishPosts
    simp only [hempty]
    simp
  · intro hne
    have hlen : ((findByIds s ids).length == 0) = false := by
      rw [beq_eq_false_iff_ne]
      intro h
      exact hne (List.length_eq_zero.mp h)
    constructor
    · exact ⟨_, by unfold publishPosts; rw [if_neg (by simp [hlen])]⟩
    · intro res s' hok
      unfold publishPosts at hok
      rw [if_neg (by simp [hlen])] at hok
      injection hok with h
      injection h with h1 h2
      subst h1
      subst h2
      refine ⟨rfl, by simp, ?_⟩
      intro i hi hi'
      constructor
      · intro hc
        simp only [List.getElem_map, hc, if_true]
        cases publish <;> simp [setPublishedFields]
      · intro hc
        simp only [List.getElem_map, hc, Bool.false_eq_true, if_false]

/-- Witness for C9: recursively publishing post 1 of the rename fixture
store. -/
theorem publish_contract_witness :
    PublishSpec renameStore true true [1] (some 3) none 10 :=
  publish_contract renameStore true true [1] (some 3) none 10

end Burdy
